import Mathlib

/-!
Verification development for the Z80 post-select combiner pass
(`llvm/lib/Target/Z80/Z80PostSelectCombiner.cpp`).

The pass walks every basic block of a machine function once, tracking in a
`ValLoc` value which register or memory location currently holds the value
that the sign/zero flags reflect, and performs local rewrites:
stack-pointer copy legalization, push/lea fusion, and deletion of a
redundant self-OR of the accumulator.

The embedding below translates the `ValLoc` class and the
`runOnMachineFunction` driver directly from the source.  Facts the source
obtains from the surrounding LLVM infrastructure (the register overlap
oracle `TargetRegisterInfo::regsOverlap`, the register-use bookkeeping of
`MachineRegisterInfo`, and the operand/def layout of the Z80 opcodes from
`Z80InstrInfo.td`, none of which are part of the pass source) are modelled
as explicit parameters or per-opcode tables, following the spec's
description of them as injected read-only oracles.
-/

namespace Z80

/-- Registers as in LLVM's `Register`: a distinguished invalid value,
physical registers, virtual registers, and stack-slot pseudo-registers
(`Register::index2StackSlot` maps a non-negative frame index into the
stack-slot range). -/
inductive Register where
  | invalid : Register
  | phys : Nat → Register
  | virt : Nat → Register
  | stackslot : Nat → Register
deriving DecidableEq, Repr

/-- Accumulator register `Z80::A`. -/
def A : Register := Register.phys 0

/-- Flags register `Z80::F`. -/
def F : Register := Register.phys 1

/-- The 16-bit stack pointer pseudo-register `Z80::SPS`. -/
def SPS : Register := Register.phys 2

/-- The 24-bit stack pointer pseudo-register `Z80::SPL`. -/
def SPL : Register := Register.phys 3

/-- Source `Register::isValid`: any register other than the invalid sentinel. -/
def Register.isValid : Register → Bool
  | Register.invalid => false
  | _ => true

/-- Source `Register::index2StackSlot` on a non-negative frame index. -/
def Register.index2StackSlot (fi : Int) : Register :=
  Register.stackslot fi.toNat

/-- Register-overlap oracle, `TargetRegisterInfo::regsOverlap`:
injected as a boolean relation, per the spec (write to the first register
may change the value observed through the second). -/
def Overlap : Type := Register → Register → Bool

/-- Register classes appearing in the pass: the 16-bit and 24-bit
accumulator classes used by `MRI.createVirtualRegister`. -/
inductive RegClass where
  | a16 : RegClass
  | a24 : RegClass
deriving DecidableEq, Repr

/-- Machine operands used by the pass: a register, an immediate, or a
stack frame index (a memory-base operand that denotes a stack slot). -/
inductive MachineOperand where
  | reg : Register → MachineOperand
  | imm : Int → MachineOperand
  | fi : Int → MachineOperand
deriving DecidableEq, Repr

/-- Source `MachineOperand::isReg`. -/
def MachineOperand.isReg : MachineOperand → Bool
  | MachineOperand.reg _ => true
  | _ => false

/-- Source `MachineOperand::getReg`; returns the invalid register on a
non-register operand (calling it there is an upstream precondition
violation). -/
def MachineOperand.getReg : MachineOperand → Register
  | MachineOperand.reg r => r
  | _ => Register.invalid

/-- Source `MachineOperand::getImm`; 0 on a non-immediate operand (precondition
violation upstream). -/
def MachineOperand.getImm : MachineOperand → Int
  | MachineOperand.imm v => v
  | _ => 0

/-- Source `MachineOperand::getIndex`; the callers only apply it to memory-base
operands, which are registers or frame indices.  A junk value of -1 keeps
non-frame-index operands untracked. -/
def MachineOperand.getIndex : MachineOperand → Int
  | MachineOperand.fi i => i
  | _ => -1

/-- Opcodes dispatched on by the pass's switch, plus a `generic`
constructor standing for every opcode that reaches the `default:` case.
Modelled from the spec: the closed architecture-defined opcode set lives
in `Z80InstrInfo.td`, outside the pass source. -/
inductive Opcode where
  | COPY
  | PUSH16r | PUSH24r
  | LD8rp | LD8gp | LD8ro | LD8go | LD8pr | LD8pg | LD8or | LD8og
  | OR8ar
  | ADD8ar | ADD8ai | ADC8ar | ADC8ai | SUB8ar | SUB8ai | SBC8ar | SBC8ai
  | AND8ar | AND8ai | XOR8ar | XOR8ai | OR8ai
  | RLC8r | RRC8r | RL8r | RR8r | SLA8r | SRA8r | SRL8r | INC8r | DEC8r
  | ADD8ap | ADC8ap | SUB8ap | SBC8ap | AND8ap | XOR8ap | OR8ap
  | RLC8p | RRC8p | RL8p | RR8p | SLA8p | SRA8p | SRL8p | INC8p | DEC8p
  | ADD8ao | ADC8ao | SUB8ao | SBC8ao | AND8ao | XOR8ao | OR8ao
  | RLC8o | RRC8o | RL8o | RR8o | SLA8o | SRA8o | SRL8o | INC8o | DEC8o
  | LEA16ro | LEA24ro | PEA16o | PEA24o | LD16sa | LD24sa
  | generic
deriving DecidableEq, Repr

/-- Machine instruction: opcode, ordered operand list, debug location
(an opaque token the pass copies onto inserted instructions).  For a
`generic` opcode — any opcode that reaches the switch's `default:` case —
the fields `gWritesF` and `gDefs` carry the two facts the pass consumes
about it: whether it writes the flags register implicitly, and its
explicit register definitions (both come from `Z80InstrInfo.td`, outside
the pass source); they are ignored for the named opcodes. -/
structure MachineInstr where
  opcode : Opcode
  operands : List MachineOperand
  dbgLoc : Nat
  gWritesF : Bool
  gDefs : List Register
deriving DecidableEq, Repr

/-- Build an instruction with one of the named (non-`generic`) opcodes. -/
def mkI (opc : Opcode) (ops : List MachineOperand) (dl : Nat) : MachineInstr :=
  { opcode := opc, operands := ops, dbgLoc := dl, gWritesF := false,
    gDefs := [] }

/-- Source `MachineInstr::getOperand`. -/
def MachineInstr.getOperand (mi : MachineInstr) (i : Nat) : MachineOperand :=
  mi.operands.getD i (MachineOperand.imm 0)

/-- Number of explicit register definitions of each opcode.  Modelled from
the spec: the operand layout comes from `Z80InstrInfo.td`.  Loads into a
register, register rotate/shift/inc/dec, `COPY` and `LEA` define their
first operand explicitly; the accumulator arithmetic forms (`ADD8ar`,
`OR8ar`, ...) define the accumulator and flags only implicitly, their sole
explicit operands being the source register/immediate; stores and pushes
define no register operand. -/
def Opcode.numExplicitDefs : Opcode → Nat
  | Opcode.COPY => 1
  | Opcode.LD8rp | Opcode.LD8gp | Opcode.LD8ro | Opcode.LD8go => 1
  | Opcode.RLC8r | Opcode.RRC8r | Opcode.RL8r | Opcode.RR8r => 1
  | Opcode.SLA8r | Opcode.SRA8r | Opcode.SRL8r => 1
  | Opcode.INC8r | Opcode.DEC8r => 1
  | Opcode.LEA16ro | Opcode.LEA24ro => 1
  | _ => 0

/-- Whether the opcode writes the flags register implicitly (the
`MI.modifiesRegister(Z80::F, &TRI)` part coming from implicit defs).
Modelled from the spec: all the arithmetic/logic/rotate/shift/inc/dec
forms produce flags; loads, stores, copies, pushes and address
computations do not. -/
def MachineInstr.writesF (mi : MachineInstr) : Bool :=
  match mi.opcode with
  | Opcode.COPY | Opcode.PUSH16r | Opcode.PUSH24r => false
  | Opcode.LD8rp | Opcode.LD8gp | Opcode.LD8ro | Opcode.LD8go => false
  | Opcode.LD8pr | Opcode.LD8pg | Opcode.LD8or | Opcode.LD8og => false
  | Opcode.LEA16ro | Opcode.LEA24ro | Opcode.PEA16o | Opcode.PEA24o => false
  | Opcode.LD16sa | Opcode.LD24sa => false
  | Opcode.generic => mi.gWritesF
  | _ => true

/-- Source `MachineInstr::defs()`: the explicit register definitions, i.e. the
leading def operands.  Implicit definitions are not included, exactly as
in LLVM's accessor. -/
def MachineInstr.defs (mi : MachineInstr) : List Register :=
  match mi.opcode with
  | Opcode.generic => mi.gDefs
  | opc =>
      if opc.numExplicitDefs = 1 then
        match mi.operands with
        | MachineOperand.reg r :: _ => [r]
        | _ => []
      else []

/-- Register operands read by the instruction: every register operand
outside the explicit-def slots (used for `MRI.hasOneUse`). -/
def MachineInstr.uses (mi : MachineInstr) : List Register :=
  (mi.operands.drop mi.opcode.numExplicitDefs).filterMap fun mo =>
    match mo with
    | MachineOperand.reg r => some r
    | _ => none

/-- Source `MI.modifiesRegister(Z80::F, &TRI)`: some definition (implicit flag
write, or an explicit def overlapping `F` per the oracle) changes the
flags register. -/
def MachineInstr.modifiesF (ov : Overlap) (mi : MachineInstr) : Bool :=
  mi.writesF || mi.defs.any fun d => ov d F

/-- Conversion of an `int64_t` immediate to the `int8_t` offset parameter
of `ValLoc::setMem` / `ValLoc::matchesMem` (two's-complement wrap at the
call boundary). -/
def toInt8 (v : Int) : Int := (v + 128) % 256 - 128

/-- The flag-location tracker `ValLoc`: a tracked register fact `Reg`, a
tracked memory fact `(Base, Off)`.  Default-constructed with the invalid
register in both slots and offset zero. -/
structure ValLoc where
  Reg : Register
  Base : Register
  Off : Int
deriving DecidableEq, Repr

/-- Source `ValLoc()` — both facts invalid, offset zero. -/
def ValLoc.empty : ValLoc :=
  { Reg := Register.invalid, Base := Register.invalid, Off := 0 }

/-- Source `ValLoc::clear` — reset to the default-constructed state. -/
def ValLoc.clear (_ : ValLoc) : ValLoc := ValLoc.empty

/-- Source `ValLoc::setReg(Register)`. -/
def ValLoc.setReg (l : ValLoc) (r : Register) : ValLoc := { l with Reg := r }

/-- Source `ValLoc::setReg(MachineInstr, OpNo)` overload. -/
def ValLoc.setRegOp (l : ValLoc) (mi : MachineInstr) (opNo : Nat) : ValLoc :=
  l.setReg (mi.getOperand opNo).getReg

/-- Source `ValLoc::setMem(Base, Off)` (the `Off` parameter is `int8_t`; the
conversion from the caller's wider immediate happens here). -/
def ValLoc.setMem (l : ValLoc) (b : Register) (o : Int) : ValLoc :=
  { l with Base := b, Off := toInt8 o }

/-- Source `ValLoc::setPtr(MachineInstr, OpNo)`: memory through a plain base
register, offset 0. -/
def ValLoc.setPtrOp (l : ValLoc) (mi : MachineInstr) (opNo : Nat) : ValLoc :=
  l.setMem (mi.getOperand opNo).getReg 0

/-- Source `ValLoc::getBaseReg`: base register of an offset memory operand; a
frame-index base maps to a stack-slot pseudo-register when the index is
non-negative, and to the invalid register otherwise. -/
def ValLoc.getBaseReg (mi : MachineInstr) (opNo : Nat) : Register :=
  let mo := mi.getOperand opNo
  if mo.isReg then mo.getReg
  else if 0 ≤ mo.getIndex then Register.index2StackSlot mo.getIndex
  else Register.invalid

/-- Source `ValLoc::setOff(MachineInstr, OpNo)`: memory through (base operand at
`OpNo`, immediate offset at `OpNo + 1`). -/
def ValLoc.setOffOp (l : ValLoc) (mi : MachineInstr) (opNo : Nat) : ValLoc :=
  l.setMem (ValLoc.getBaseReg mi opNo) (mi.getOperand (opNo + 1)).getImm

/-- Source `ValLoc::matchesReg(Register)`. -/
def ValLoc.matchesReg (l : ValLoc) (r : Register) : Bool :=
  r.isValid && l.Reg == r

/-- Source `ValLoc::matchesReg(MachineInstr, OpNo)` overload. -/
def ValLoc.matchesRegOp (l : ValLoc) (mi : MachineInstr) (opNo : Nat) : Bool :=
  l.matchesReg (mi.getOperand opNo).getReg

/-- Source `ValLoc::matchesMem(Base, Off)` (the `Off` parameter is `int8_t`). -/
def ValLoc.matchesMem (l : ValLoc) (b : Register) (o : Int) : Bool :=
  b.isValid && l.Base == b && l.Off == toInt8 o

/-- Source `ValLoc::matchesPtr(MachineInstr, OpNo)`. -/
def ValLoc.matchesPtrOp (l : ValLoc) (mi : MachineInstr) (opNo : Nat) : Bool :=
  l.matchesMem (mi.getOperand opNo).getReg 0

/-- Source `ValLoc::matchesOff(MachineInstr, OpNo)`. -/
def ValLoc.matchesOffOp (l : ValLoc) (mi : MachineInstr) (opNo : Nat) : Bool :=
  l.matchesMem (ValLoc.getBaseReg mi opNo) (mi.getOperand (opNo + 1)).getImm

/-- Source `ValLoc::clobberDefs(MI, TRI)`: clear the tracker when any explicit
register definition of the instruction overlaps the tracked register or
the tracked base register.  The source iterates the definitions and the
pair `{Reg, Base}` and clears on the first overlap; the boolean `any`
below is that same condition. -/
def ValLoc.clobberDefs (ov : Overlap) (mi : MachineInstr) (l : ValLoc) : ValLoc :=
  if mi.defs.any (fun d =>
      (l.Reg.isValid && ov d l.Reg) || (l.Base.isValid && ov d l.Base))
  then ValLoc.empty else l

/-- Source `MRI.hasOneUse` ingredient: number of occurrences of the register in
use positions across the instructions of the whole function. -/
def useCount (fn : List MachineInstr) (r : Register) : Nat :=
  (fn.map fun mi => mi.uses.count r).sum

/-- Source `MRI.getVRegDef`: the defining instruction of a virtual register, or
none (physical registers and undefined registers yield none). -/
def getVRegDef (fn : List MachineInstr) (r : Register) : Option MachineInstr :=
  match r with
  | Register.virt _ => fn.find? fun mi => mi.defs.contains r
  | _ => none

/-- Result of handling one instruction (the switch body followed by the
per-instruction `clobberDefs` step): the instructions standing in the
output stream where the handled instruction stood (`emit`), the tracker
state, the instruction object as it stands when `clobberDefs(MI, TRI)`
reads it (`clobbered` — the in-place mutated form for the rewrite cases),
whether the handled instruction was erased from the stream, a request to
erase the defining instruction of a register elsewhere in the function,
whether this step set `Changed`, a freshly created virtual register with
its class, and the next unused virtual register number. -/
structure StepOut where
  emit : List MachineInstr
  loc : ValLoc
  clobbered : MachineInstr
  erasedCurrent : Bool
  eraseDefOf : Option Register
  changedDelta : Bool
  newVReg : Option (Nat × RegClass)
  nextV : Nat
deriving DecidableEq, Repr

/-- A step that leaves the instruction and the `Changed` flag alone and
carries an updated tracker state. -/
def passThrough (mi : MachineInstr) (loc : ValLoc) (nv : Nat) : StepOut :=
  { emit := [mi], loc := loc, clobbered := mi, erasedCurrent := false,
    eraseDefOf := none, changedDelta := false, newVReg := none, nextV := nv }

/-- The switch of `runOnMachineFunction` over one instruction: every
`case` translated in order.  `fn` is the current whole-function
instruction sequence, consulted for the `MachineRegisterInfo` queries of
the push/lea fusion; `nv` is the next unused virtual register number
(`MRI.createVirtualRegister`); `hz` is `STI.hasEZ80Ops()`. -/
def ruleStep (ov : Overlap) (hz : Bool) (fn : List MachineInstr) (nv : Nat)
    (loc : ValLoc) (mi : MachineInstr) : StepOut :=
  match mi.opcode with
  | Opcode.COPY =>
      let loc1 := if loc.matchesRegOp mi 1 then loc.setRegOp mi 0 else loc
      let dst := (mi.getOperand 0).getReg
      if dst ≠ SPS ∧ dst ≠ SPL then passThrough mi loc1 nv
      else
        let rc := if dst = SPL then RegClass.a24 else RegClass.a16
        let tmp := Register.virt nv
        let ins := mkI Opcode.COPY [MachineOperand.reg tmp, mi.getOperand 1]
          mi.dbgLoc
        let rew := mkI (if dst = SPL then Opcode.LD24sa else Opcode.LD16sa)
          [MachineOperand.reg tmp] mi.dbgLoc
        { emit := [ins, rew], loc := loc1, clobbered := rew,
          erasedCurrent := false, eraseDefOf := none, changedDelta := true,
          newVReg := some (nv, rc), nextV := nv + 1 }
  | Opcode.PUSH16r | Opcode.PUSH24r =>
      if !hz then passThrough mi loc nv
      else
        let isP24 := mi.opcode = Opcode.PUSH24r
        let srcReg := (mi.getOperand 0).getReg
        if useCount fn srcReg ≠ 1 then passThrough mi loc nv
        else
          match getVRegDef fn srcReg with
          | none => passThrough mi loc nv
          | some srcMI =>
              if srcMI.opcode ≠
                  (if isP24 then Opcode.LEA24ro else Opcode.LEA16ro) then
                passThrough mi loc nv
              else
                let baseMO := srcMI.getOperand 1
                let newOff := (srcMI.getOperand 2).getImm
                let rew :=
                  if ¬baseMO.isReg ∨ newOff ≠ 0 then
                    mkI (if isP24 then Opcode.PEA24o else Opcode.PEA16o)
                      [baseMO, MachineOperand.imm newOff] mi.dbgLoc
                  else
                    mkI mi.opcode [MachineOperand.reg baseMO.getReg] mi.dbgLoc
                { emit := [rew], loc := loc, clobbered := rew,
                  erasedCurrent := false, eraseDefOf := some srcReg,
                  changedDelta := true, newVReg := none, nextV := nv }
  | Opcode.LD8rp | Opcode.LD8gp =>
      passThrough mi
        (if loc.matchesPtrOp mi 1 then loc.setRegOp mi 0 else loc) nv
  | Opcode.LD8ro | Opcode.LD8go =>
      passThrough mi
        (if loc.matchesOffOp mi 1 then loc.setRegOp mi 0 else loc) nv
  | Opcode.LD8pr | Opcode.LD8pg =>
      passThrough mi
        (if loc.matchesRegOp mi 1 then loc.setPtrOp mi 0 else loc) nv
  | Opcode.LD8or | Opcode.LD8og =>
      passThrough mi
        (if loc.matchesRegOp mi 2 then loc.setOffOp mi 0 else loc) nv
  | Opcode.OR8ar =>
      if (mi.getOperand 0).getReg = A ∧ loc.matchesRegOp mi 0 then
        { emit := [], loc := loc, clobbered := mi, erasedCurrent := true,
          eraseDefOf := none, changedDelta := false, newVReg := none,
          nextV := nv }
      else passThrough mi (loc.setReg A) nv
  | Opcode.ADD8ar | Opcode.ADD8ai | Opcode.ADC8ar | Opcode.ADC8ai
  | Opcode.SUB8ar | Opcode.SUB8ai | Opcode.SBC8ar | Opcode.SBC8ai
  | Opcode.AND8ar | Opcode.AND8ai | Opcode.XOR8ar | Opcode.XOR8ai
  | Opcode.OR8ai =>
      passThrough mi (loc.setReg A) nv
  | Opcode.RLC8r | Opcode.RRC8r | Opcode.RL8r | Opcode.RR8r
  | Opcode.SLA8r | Opcode.SRA8r | Opcode.SRL8r
  | Opcode.INC8r | Opcode.DEC8r =>
      passThrough mi (loc.setRegOp mi 0) nv
  | Opcode.ADD8ap | Opcode.ADC8ap | Opcode.SUB8ap | Opcode.SBC8ap
  | Opcode.AND8ap | Opcode.XOR8ap | Opcode.OR8ap
  | Opcode.RLC8p | Opcode.RRC8p | Opcode.RL8p | Opcode.RR8p
  | Opcode.SLA8p | Opcode.SRA8p | Opcode.SRL8p
  | Opcode.INC8p | Opcode.DEC8p =>
      passThrough mi (loc.setPtrOp mi 0) nv
  | Opcode.ADD8ao | Opcode.ADC8ao | Opcode.SUB8ao | Opcode.SBC8ao
  | Opcode.AND8ao | Opcode.XOR8ao | Opcode.OR8ao
  | Opcode.RLC8o | Opcode.RRC8o | Opcode.RL8o | Opcode.RR8o
  | Opcode.SLA8o | Opcode.SRA8o | Opcode.SRL8o
  | Opcode.INC8o | Opcode.DEC8o =>
      passThrough mi (loc.setOffOp mi 0) nv
  | _ =>
      passThrough mi
        (if MachineInstr.modifiesF ov mi then ValLoc.empty else loc) nv

/-- One full per-instruction step: the switch, then the unconditional
`clobberDefs` call.  The source passes the same `MI` object to
`clobberDefs`, so the clobber check reads the in-place mutated form of
the instruction (and, on the self-OR deletion path, an instruction that
has already been erased from its parent). -/
def processOne (ov : Overlap) (hz : Bool) (fn : List MachineInstr) (nv : Nat)
    (loc : ValLoc) (mi : MachineInstr) : StepOut :=
  let r := ruleStep ov hz fn nv loc mi
  { r with loc := ValLoc.clobberDefs ov r.clobbered r.loc }

/-- Remove the first instruction defining `r` from a block; none if the
block holds no such instruction. -/
def eraseFirstDef (r : Register) : List MachineInstr →
    Option (List MachineInstr)
  | [] => none
  | mi :: rest =>
      if mi.defs.contains r then some rest
      else (eraseFirstDef r rest).map fun rest' => mi :: rest'

/-- Remove the first instruction defining `r` from a block list. -/
def eraseFirstDefBlocks (r : Register) : List (List MachineInstr) →
    Option (List (List MachineInstr))
  | [] => none
  | b :: bs =>
      match eraseFirstDef r b with
      | some b' => some (b' :: bs)
      | none => (eraseFirstDefBlocks r bs).map fun bs' => b :: bs'

/-- State of the walk: blocks already fully processed, the processed
prefix of the current block, the blocks not yet reached, the tracker, the
`Changed` flag, whether `clobberDefs` was ever invoked on an instruction
already erased from the stream (instrumenting the use-after-erase the
source performs on the self-OR deletion path), the next virtual register
number, and the virtual registers created so far with their classes. -/
structure WalkSt where
  prevBlocks : List (List MachineInstr)
  done : List MachineInstr
  restBlocks : List (List MachineInstr)
  loc : ValLoc
  changed : Bool
  clobberedErased : Bool
  nextV : Nat
  newVRegs : List (Nat × RegClass)
deriving DecidableEq, Repr

/-- Apply an erase request from the push/lea fusion: `SrcMI` is removed
from wherever it resides in the function — the already processed blocks,
the processed prefix of the current block, the unprocessed remainder of
the current block, or a later block — in function order. -/
def applyErase (r : Register) (st : WalkSt) (rest : List MachineInstr) :
    WalkSt × List MachineInstr :=
  match eraseFirstDefBlocks r st.prevBlocks with
  | some pbs => ({ st with prevBlocks := pbs }, rest)
  | none =>
      match eraseFirstDef r st.done with
      | some d => ({ st with done := d }, rest)
      | none =>
          match eraseFirstDef r rest with
          | some rest' => (st, rest')
          | none =>
              match eraseFirstDefBlocks r st.restBlocks with
              | some rbs => ({ st with restBlocks := rbs }, rest)
              | none => (st, rest)

/-- Walk the remaining instructions of the current block, mirroring the
`while (I != E)` loop: advance past the instruction, handle it, run the
clobber step, apply stream mutations.  Structural recursion on a fuel
that the callers set to the number of remaining instructions; each
iteration consumes the head instruction and erasure only removes further
instructions, so that fuel is always sufficient. -/
def walkBlockAux (ov : Overlap) (hz : Bool) :
    Nat → WalkSt → List MachineInstr → WalkSt
  | _, st, [] => st
  | 0, st, todo => { st with done := st.done ++ todo }
  | fuel + 1, st, mi :: rest =>
      let fn := st.prevBlocks.flatten ++ st.done ++ (mi :: rest) ++
        st.restBlocks.flatten
      let out := processOne ov hz fn st.nextV st.loc mi
      let st1 : WalkSt :=
        { st with
          done := st.done ++ out.emit
          loc := out.loc
          changed := st.changed || out.changedDelta
          clobberedErased := st.clobberedErased || out.erasedCurrent
          nextV := out.nextV
          newVRegs := st.newVRegs ++
            (match out.newVReg with | some v => [v] | none => []) }
      match out.eraseDefOf with
      | none => walkBlockAux ov hz fuel st1 rest
      | some r =>
          let p := applyErase r st1 rest
          walkBlockAux ov hz fuel p.1 p.2

/-- Walk one whole block. -/
def walkBlock (ov : Overlap) (hz : Bool) (st : WalkSt)
    (b : List MachineInstr) : WalkSt :=
  walkBlockAux ov hz b.length st b

/-- Observable outcome of the pass on one machine function: the mutated
block streams, the boolean returned to the pass pipeline, and the
use-after-erase instrumentation flag. -/
structure PassOut where
  blocks : List (List MachineInstr)
  changed : Bool
  clobberedErased : Bool
deriving DecidableEq, Repr

/-- Process the remaining blocks in layout order.  Each block starts with
a fresh default-constructed tracker (`ValLoc SZFlagLoc;` is declared
inside the per-block scope).  The `fuel` argument bounds the recursion by
the number of remaining blocks, which stream mutation never changes
(erasure removes instructions, never blocks). -/
def runBlocks (ov : Overlap) (hz : Bool) : Nat → WalkSt → PassOut
  | 0, st =>
      { blocks := st.prevBlocks, changed := st.changed,
        clobberedErased := st.clobberedErased }
  | fuel + 1, st =>
      match st.restBlocks with
      | [] =>
          { blocks := st.prevBlocks, changed := st.changed,
            clobberedErased := st.clobberedErased }
      | b :: bs =>
          let st' := walkBlock ov hz
            { st with done := [], restBlocks := bs, loc := ValLoc.empty } b
          runBlocks ov hz fuel
            { st' with
              prevBlocks := st'.prevBlocks ++ [st'.done]
              done := [] }

/-- Source `runOnMachineFunction`: walk every block of the function and report
whether the instruction stream was mutated. -/
def runPass (ov : Overlap) (hz : Bool) (blocks : List (List MachineInstr)) :
    PassOut :=
  runBlocks ov hz blocks.length
    { prevBlocks := [], done := [], restBlocks := blocks,
      loc := ValLoc.empty, changed := false, clobberedErased := false,
      nextV := 0, newVRegs := [] }

/-! Concrete fixtures used by the claim theorems: a minimal overlap
oracle (two registers overlap exactly when they are equal), one with a
single genuine aliasing pair, and small instruction streams. -/

/-- Overlap oracle relating each register only to itself. -/
def eqOracle : Overlap := fun a b => a == b

/-- Overlap oracle where the physical register 10 additionally aliases
the accumulator (a synthetic sub/super-register pair, as the spec's
injected-oracle design note suggests for tests). -/
def aliasOracle : Overlap := fun a b =>
  a == b || (a == Register.phys 10 && b == A) ||
    (b == Register.phys 10 && a == A)

/-- Source `ADD A, r9` — accumulator arithmetic, sets the tracker to `A`. -/
def iADD : MachineInstr := mkI Opcode.ADD8ar [MachineOperand.reg (Register.phys 9)] 0

/-- Source `OR A, A` — the redundant self-OR idiom. -/
def iORA : MachineInstr := mkI Opcode.OR8ar [MachineOperand.reg A] 0

/-- An instruction of an opcode outside the switch whose only explicit
definition is the physical register 10 and which does not write flags. -/
def iDEF10 : MachineInstr :=
  { opcode := Opcode.generic, operands := [], dbgLoc := 0,
    gWritesF := false, gDefs := [Register.phys 10] }

/-- Source `INC8r %v5` (destination tied to source). -/
def iINC : MachineInstr :=
  mkI Opcode.INC8r
    [MachineOperand.reg (Register.virt 5), MachineOperand.reg (Register.virt 5)] 0

/-- Source `LEA16ro %v3, r20, 2` — load effective address with offset 2. -/
def iLEA2 : MachineInstr :=
  mkI Opcode.LEA16ro [MachineOperand.reg (Register.virt 3),
    MachineOperand.reg (Register.phys 20), MachineOperand.imm 2] 0

/-- Source `LEA16ro %v3, r20, 0` — register base, zero offset. -/
def iLEA0 : MachineInstr :=
  mkI Opcode.LEA16ro [MachineOperand.reg (Register.virt 3),
    MachineOperand.reg (Register.phys 20), MachineOperand.imm 0] 0

/-- Source `PUSH16r %v3`. -/
def iPUSH : MachineInstr := mkI Opcode.PUSH16r [MachineOperand.reg (Register.virt 3)] 0


/-! Helper lemmas about the clobber step and the walk. -/

/-- Guarantee provided by the clobber step: after `clobberDefs`, no
definition of the instruction overlaps a still-valid tracked register or
tracked base (either the tracker was cleared, or no overlap existed). -/
theorem clobberDefs_noStale (ov : Overlap) (mi : MachineInstr) (l : ValLoc)
    (d : Register) (hd : d ∈ mi.defs) :
    ((ValLoc.clobberDefs ov mi l).Reg.isValid = true →
      ov d (ValLoc.clobberDefs ov mi l).Reg = false) ∧
    ((ValLoc.clobberDefs ov mi l).Base.isValid = true →
      ov d (ValLoc.clobberDefs ov mi l).Base = false) := by
  unfold ValLoc.clobberDefs
  split
  · simp [ValLoc.empty, Register.isValid]
  · rename_i hcond
    rw [List.any_eq_true] at hcond
    push_neg at hcond
    have hthis := hcond d hd
    cases hR : l.Reg.isValid <;> cases hB : l.Base.isValid <;>
      cases hor : ov d l.Reg <;> cases hob : ov d l.Base <;> simp_all

/-- Only the push cases of the switch ever request the deletion of a
defining instruction elsewhere in the function. -/
theorem ruleStep_eraseDefOf_none (ov : Overlap) (hz : Bool)
    (fn : List MachineInstr) (nv : Nat) (loc : ValLoc) (mi : MachineInstr)
    (h1 : mi.opcode ≠ Opcode.PUSH16r) (h2 : mi.opcode ≠ Opcode.PUSH24r) :
    (ruleStep ov hz fn nv loc mi).eraseDefOf = none := by
  obtain ⟨opc, ops, dl, gw, gd⟩ := mi
  simp only [MachineInstr.opcode] at h1 h2
  cases opc <;> first
    | exact absurd rfl h1
    | exact absurd rfl h2
    | (simp [ruleStep, passThrough]; done)
    | (simp only [ruleStep]
       split <;> simp [passThrough])

/-- Walking instructions that contain no push leaves the other blocks of
the function untouched. -/
theorem walkBlockAux_frame (ov : Overlap) (hz : Bool) :
    ∀ (fuel : Nat) (st : WalkSt) (todo : List MachineInstr),
    (∀ mi ∈ todo, mi.opcode ≠ Opcode.PUSH16r ∧ mi.opcode ≠ Opcode.PUSH24r) →
    (walkBlockAux ov hz fuel st todo).prevBlocks = st.prevBlocks ∧
    (walkBlockAux ov hz fuel st todo).restBlocks = st.restBlocks := by
  intro fuel
  induction fuel with
  | zero =>
      intro st todo h
      cases todo <;> simp [walkBlockAux]
  | succ n ih =>
      intro st todo h
      cases todo with
      | nil => simp [walkBlockAux]
      | cons mi rest =>
          have hmi := h mi (by simp)
          have hrest : ∀ m ∈ rest, m.opcode ≠ Opcode.PUSH16r ∧
              m.opcode ≠ Opcode.PUSH24r := fun m hm => h m (by simp [hm])
          have herase : (processOne ov hz
              (st.prevBlocks.flatten ++ st.done ++ (mi :: rest) ++
                st.restBlocks.flatten) st.nextV st.loc mi).eraseDefOf =
              none := by
            have := ruleStep_eraseDefOf_none ov hz
              (st.prevBlocks.flatten ++ st.done ++ (mi :: rest) ++
                st.restBlocks.flatten) st.nextV st.loc mi hmi.1 hmi.2
            simpa [processOne] using this
          rw [walkBlockAux]
          simp only [herase]
          exact ih _ rest hrest

/-! Claim theorems. -/

/-- Claim C1: a self-OR of the accumulator (`OR8ar` with register operand
`A`) is deleted by the pass exactly when the sign/zero tracker currently
matches `A`, and preserved when it does not; concretely, the self-OR
immediately preceded by the accumulator arithmetic `ADD8ar` is deleted
from the block, while the same self-OR with no preceding
tracker-setting instruction is preserved. -/
theorem c1_self_or_elimination :
    (∀ (ov : Overlap) (hz : Bool) (fn : List MachineInstr) (nv : Nat)
      (loc : ValLoc) (dl : Nat),
      ((loc.matchesReg A = true →
        (processOne ov hz fn nv loc
          (mkI Opcode.OR8ar [MachineOperand.reg A] dl)).emit = [] ∧
        (processOne ov hz fn nv loc
          (mkI Opcode.OR8ar [MachineOperand.reg A] dl)).erasedCurrent = true)
      ∧ (loc.matchesReg A = false →
        (processOne ov hz fn nv loc
          (mkI Opcode.OR8ar [MachineOperand.reg A] dl)).emit =
          [mkI Opcode.OR8ar [MachineOperand.reg A] dl] ∧
        (processOne ov hz fn nv loc
          (mkI Opcode.OR8ar [MachineOperand.reg A] dl)).erasedCurrent =
          false)))
    ∧ (runPass eqOracle true [[iADD, iORA]]).blocks = [[iADD]]
    ∧ (runPass eqOracle true [[iORA]]).blocks = [[iORA]] := by
  refine ⟨?_, by decide, by decide⟩
  intro ov hz fn nv loc dl
  constructor
  · intro h
    simp [processOne, ruleStep, mkI, MachineInstr.getOperand,
      ValLoc.matchesRegOp, MachineOperand.getReg, h]
  · intro h
    simp [processOne, ruleStep, mkI, MachineInstr.getOperand,
      ValLoc.matchesRegOp, MachineOperand.getReg, h, passThrough]

/-- Claim C1 witness: the deletion branch applied with the tracker set to
the accumulator. -/
theorem c1_self_or_elimination_witness :
    (processOne eqOracle true [] 0 (ValLoc.empty.setReg A)
      (mkI Opcode.OR8ar [MachineOperand.reg A] 3)).emit = [] ∧
    (processOne eqOracle true [] 0 (ValLoc.empty.setReg A)
      (mkI Opcode.OR8ar [MachineOperand.reg A] 3)).erasedCurrent = true :=
  (c1_self_or_elimination.1 eqOracle true [] 0
    (ValLoc.empty.setReg A) 3).1 (by decide)

/-- Claim C2 counterexample: the `INC8r` rule sets the tracker to the
instruction's destination register (so the rule did fire), but the
instruction's own def-clobber check — run immediately afterwards for the
same instruction — clears the tracker, so after processing the
instruction the tracker no longer matches the destination just set. -/
theorem c2_counterexample :
    (ruleStep eqOracle true [] 0 ValLoc.empty iINC).loc.matchesReg
      (Register.virt 5) = true ∧
    (processOne eqOracle true [] 0 ValLoc.empty iINC).loc.matchesReg
      (Register.virt 5) = false := by decide

/-- Claim C2 amended: only the accumulator-arithmetic rules survive their
own def-clobber check, because the accumulator is an implicit definition
and `clobberDefs` scans explicit definitions only; the rules that set the
tracker to an explicit destination operand — register
rotate/shift/increment/decrement, load retargeting, copy retargeting —
are immediately undone by the instruction's own def-clobber check
whenever the oracle relates the written destination to itself. -/
theorem c2_amended_self_clobber :
    (∀ (ov : Overlap) (hz : Bool) (fn : List MachineInstr) (nv : Nat)
      (loc : ValLoc) (mi : MachineInstr),
      mi.opcode ∈ [Opcode.OR8ar, Opcode.ADD8ar, Opcode.ADD8ai, Opcode.ADC8ar,
        Opcode.ADC8ai, Opcode.SUB8ar, Opcode.SUB8ai, Opcode.SBC8ar,
        Opcode.SBC8ai, Opcode.AND8ar, Opcode.AND8ai, Opcode.XOR8ar,
        Opcode.XOR8ai, Opcode.OR8ai] →
      (processOne ov hz fn nv loc mi).loc.matchesReg A = true)
    ∧
    (∀ (ov : Overlap) (hz : Bool) (fn : List MachineInstr) (nv : Nat)
      (loc : ValLoc) (opc : Opcode) (r : Register)
      (ops : List MachineOperand) (dl : Nat),
      opc ∈ [Opcode.RLC8r, Opcode.RRC8r, Opcode.RL8r, Opcode.RR8r,
        Opcode.SLA8r, Opcode.SRA8r, Opcode.SRL8r, Opcode.INC8r,
        Opcode.DEC8r] →
      r.isValid = true → ov r r = true →
      (processOne ov hz fn nv loc
        (mkI opc (MachineOperand.reg r :: ops) dl)).loc = ValLoc.empty)
    ∧
    (∀ (ov : Overlap) (hz : Bool) (fn : List MachineInstr) (nv : Nat)
      (loc : ValLoc) (opc : Opcode) (d : Register)
      (ops : List MachineOperand) (dl : Nat),
      opc ∈ [Opcode.LD8rp, Opcode.LD8gp] →
      loc.matchesPtrOp (mkI opc (MachineOperand.reg d :: ops) dl) 1 = true →
      d.isValid = true → ov d d = true →
      (processOne ov hz fn nv loc
        (mkI opc (MachineOperand.reg d :: ops) dl)).loc = ValLoc.empty)
    ∧
    (∀ (ov : Overlap) (hz : Bool) (fn : List MachineInstr) (nv : Nat)
      (loc : ValLoc) (dst src : Register) (dl : Nat),
      loc.matchesReg src = true → dst ≠ SPS → dst ≠ SPL →
      dst.isValid = true → ov dst dst = true →
      (processOne ov hz fn nv loc
        (mkI Opcode.COPY
          [MachineOperand.reg dst, MachineOperand.reg src] dl)).loc =
        ValLoc.empty) := by
  refine ⟨?_, ?_, ?_, ?_⟩
  · intro ov hz fn nv loc mi hmem
    obtain ⟨opc, ops, dl, gw, gd⟩ := mi
    simp at hmem
    rcases hmem with h|h|h|h|h|h|h|h|h|h|h|h|h|h <;> subst h
    · by_cases hg : ((⟨Opcode.OR8ar, ops, dl, gw, gd⟩ :
            MachineInstr).getOperand 0).getReg = A ∧
          ValLoc.matchesRegOp loc ⟨Opcode.OR8ar, ops, dl, gw, gd⟩ 0
      · obtain ⟨h1, h2⟩ := hg
        rw [ValLoc.matchesRegOp, h1] at h2
        simp only [processOne, ruleStep,
          if_pos (⟨h1, by rwa [ValLoc.matchesRegOp, h1]⟩ :
            ((⟨Opcode.OR8ar, ops, dl, gw, gd⟩ :
              MachineInstr).getOperand 0).getReg = A ∧
            ValLoc.matchesRegOp loc ⟨Opcode.OR8ar, ops, dl, gw, gd⟩ 0)]
        simp [MachineInstr.defs, Opcode.numExplicitDefs,
          ValLoc.clobberDefs, h2]
      · simp only [processOne, ruleStep, if_neg hg]
        simp [passThrough, MachineInstr.defs, Opcode.numExplicitDefs,
          ValLoc.clobberDefs, ValLoc.setReg, ValLoc.matchesReg, A,
          Register.isValid]
    all_goals
      simp [processOne, ruleStep, passThrough, MachineInstr.defs,
        Opcode.numExplicitDefs, ValLoc.clobberDefs, ValLoc.setReg,
        ValLoc.matchesReg, A, Register.isValid]
  · intro ov hz fn nv loc opc r ops dl hmem hval hov
    simp at hmem
    rcases hmem with h|h|h|h|h|h|h|h|h <;> subst h <;>
      simp [processOne, ruleStep, passThrough, ValLoc.setRegOp,
        ValLoc.setReg, MachineInstr.getOperand, MachineInstr.defs,
        Opcode.numExplicitDefs, ValLoc.clobberDefs, mkI,
        MachineOperand.getReg, hval, hov]
  · intro ov hz fn nv loc opc d ops dl hmem hm hval hov
    simp only [mkI] at hm
    simp at hmem
    rcases hmem with h|h <;> subst h <;>
      simp [processOne, ruleStep, passThrough, ValLoc.setRegOp,
        ValLoc.setReg, MachineInstr.getOperand, MachineInstr.defs,
        Opcode.numExplicitDefs, ValLoc.clobberDefs, mkI,
        MachineOperand.getReg, hm, hval, hov]
  · intro ov hz fn nv loc dst src dl hm h1 h2 hval hov
    simp [processOne, ruleStep, passThrough, ValLoc.setRegOp,
      ValLoc.setReg, MachineInstr.getOperand, MachineInstr.defs,
      Opcode.numExplicitDefs, ValLoc.clobberDefs, mkI,
      MachineOperand.getReg, ValLoc.matchesRegOp, hm, h1, h2, hval, hov]

/-- Claim C2 witness: the surviving accumulator case and the cleared
increment case, applied at concrete inputs. -/
theorem c2_amended_self_clobber_witness :
    (processOne eqOracle true [] 0 ValLoc.empty iADD).loc.matchesReg A =
      true ∧
    (processOne eqOracle true [] 0 ValLoc.empty
      (mkI Opcode.INC8r (MachineOperand.reg (Register.virt 5) ::
        [MachineOperand.reg (Register.virt 5)]) 0)).loc = ValLoc.empty :=
  ⟨c2_amended_self_clobber.1 eqOracle true [] 0 ValLoc.empty iADD
      (by decide),
   c2_amended_self_clobber.2.1 eqOracle true [] 0 ValLoc.empty
      Opcode.INC8r (Register.virt 5) [MachineOperand.reg (Register.virt 5)]
      0 (by decide) (by decide) (by decide)⟩

/-- Claim C3: the def-clobber step runs after every instruction,
whatever rule fired: after a full per-instruction step no definition of
the instruction (in the form the clobber check reads, i.e. after any
in-place rewrite) overlaps a still-tracked register or base — the
tracker is cleared whenever such an overlap arose; and in the concrete
sequence that sets the tracker to `A`, then defines the physical register
10 which the oracle says overlaps `A`, then performs a self-OR, the
self-OR is not eliminated. -/
theorem c3_unconditional_clobber :
    (∀ (ov : Overlap) (hz : Bool) (fn : List MachineInstr) (nv : Nat)
      (loc : ValLoc) (mi : MachineInstr) (d : Register),
      d ∈ (processOne ov hz fn nv loc mi).clobbered.defs →
      (((processOne ov hz fn nv loc mi).loc.Reg.isValid = true →
        ov d (processOne ov hz fn nv loc mi).loc.Reg = false) ∧
       ((processOne ov hz fn nv loc mi).loc.Base.isValid = true →
        ov d (processOne ov hz fn nv loc mi).loc.Base = false)))
    ∧ runPass aliasOracle true [[iADD, iDEF10, iORA]] =
        ⟨[[iADD, iDEF10, iORA]], false, false⟩ := by
  refine ⟨?_, by decide⟩
  intro ov hz fn nv loc mi d hd
  exact clobberDefs_noStale ov _ _ d hd

/-- Claim C3 witness: the clobber guarantee applied to the concrete
instruction defining the physical register 10 with the tracker at `A`. -/
theorem c3_unconditional_clobber_witness :
    ((processOne eqOracle true [] 0 (ValLoc.empty.setReg A)
        iDEF10).loc.Reg.isValid = true →
      eqOracle (Register.phys 10)
        (processOne eqOracle true [] 0 (ValLoc.empty.setReg A)
          iDEF10).loc.Reg = false) ∧
    ((processOne eqOracle true [] 0 (ValLoc.empty.setReg A)
        iDEF10).loc.Base.isValid = true →
      eqOracle (Register.phys 10)
        (processOne eqOracle true [] 0 (ValLoc.empty.setReg A)
          iDEF10).loc.Base = false) :=
  c3_unconditional_clobber.1 eqOracle true [] 0 (ValLoc.empty.setReg A)
    iDEF10 (Register.phys 10) (by decide)

/-- Claim C4 counterexample: `setMem` does not invalidate a previously
held register fact, and `setReg` does not invalidate a previously held
memory fact — the tracker can match a register and a memory location at
the same time, so it is not a tri-state value. -/
theorem c4_counterexample :
    ((ValLoc.empty.setReg A).setMem (Register.virt 7) 0).matchesReg A =
      true ∧
    ((ValLoc.empty.setMem (Register.virt 7) 0).setReg A).matchesMem
      (Register.virt 7) 0 = true := by decide

/-- Claim C4 amended: `setReg` and `setMem` each replace their own
component unconditionally and leave the other intact: after `setMem` the
register fact (and `matchesReg`) is what it was before, after `setReg`
the memory fact (and `matchesMem`) is what it was before. -/
theorem c4_amended_independent_facts (l : ValLoc) (r b : Register)
    (o : Int) :
    ((l.setMem b o).Reg = l.Reg) ∧
    ((l.setReg r).Base = l.Base) ∧ ((l.setReg r).Off = l.Off) ∧
    ((l.setMem b o).matchesReg r = l.matchesReg r) ∧
    ((l.setReg r).matchesMem b o = l.matchesMem b o) ∧
    ((l.setReg r).Reg = r) ∧
    ((l.setMem b o).Base = b) ∧ ((l.setMem b o).Off = toInt8 o) := by
  simp [ValLoc.setMem, ValLoc.setReg, ValLoc.matchesReg, ValLoc.matchesMem]

/-- Claim C5: deleting the redundant self-OR mutates the instruction
stream, yet the pass returns false — the `OR8ar` deletion path does not
set `Changed`, so the returned boolean is not "true iff some mutation
occurred". -/
theorem c5_changed_flag_not_set_on_deletion :
    (runPass eqOracle true [[iADD, iORA]]).blocks ≠ [[iADD, iORA]] ∧
    (runPass eqOracle true [[iADD, iORA]]).changed = false := by decide

/-- Claim C6: a register-to-register copy whose destination is a
stack-pointer pseudo-register is legalized: a fresh virtual register of
the matching width class is created (24-bit class for `SPL`, 16-bit class
for `SPS`), a copy from the original source operand into the fresh
register is inserted before the instruction carrying its debug location,
and the instruction itself is rewritten in place into the width-specific
store-to-stack-pointer opcode whose single remaining operand is the fresh
register. -/
theorem c6_sp_copy_legalization (ov : Overlap) (hz : Bool)
    (fn : List MachineInstr) (nv : Nat) (loc : ValLoc) (dst : Register)
    (srcMO : MachineOperand) (dl : Nat) (h : dst = SPS ∨ dst = SPL) :
    (processOne ov hz fn nv loc
      (mkI Opcode.COPY [MachineOperand.reg dst, srcMO] dl)).emit =
      [mkI Opcode.COPY [MachineOperand.reg (Register.virt nv), srcMO] dl,
       mkI (if dst = SPL then Opcode.LD24sa else Opcode.LD16sa)
         [MachineOperand.reg (Register.virt nv)] dl] ∧
    (processOne ov hz fn nv loc
      (mkI Opcode.COPY [MachineOperand.reg dst, srcMO] dl)).changedDelta =
      true ∧
    (processOne ov hz fn nv loc
      (mkI Opcode.COPY [MachineOperand.reg dst, srcMO] dl)).newVReg =
      some (nv, if dst = SPL then RegClass.a24 else RegClass.a16) ∧
    (processOne ov hz fn nv loc
      (mkI Opcode.COPY [MachineOperand.reg dst, srcMO] dl)).nextV =
      nv + 1 ∧
    (processOne ov hz fn nv loc
      (mkI Opcode.COPY [MachineOperand.reg dst, srcMO] dl)).erasedCurrent =
      false := by
  rcases h with rfl | rfl <;>
    simp [processOne, ruleStep, mkI, MachineInstr.getOperand,
      MachineOperand.getReg, SPS, SPL]

/-- Claim C6 witness: legalization of a copy of the virtual register 2
into the 16-bit stack pointer. -/
theorem c6_sp_copy_legalization_witness :
    (processOne eqOracle true [] 0 ValLoc.empty
      (mkI Opcode.COPY [MachineOperand.reg SPS,
        MachineOperand.reg (Register.virt 2)] 7)).emit =
      [mkI Opcode.COPY [MachineOperand.reg (Register.virt 0),
        MachineOperand.reg (Register.virt 2)] 7,
       mkI (if SPS = SPL then Opcode.LD24sa else Opcode.LD16sa)
         [MachineOperand.reg (Register.virt 0)] 7] ∧
    (processOne eqOracle true [] 0 ValLoc.empty
      (mkI Opcode.COPY [MachineOperand.reg SPS,
        MachineOperand.reg (Register.virt 2)] 7)).changedDelta = true ∧
    (processOne eqOracle true [] 0 ValLoc.empty
      (mkI Opcode.COPY [MachineOperand.reg SPS,
        MachineOperand.reg (Register.virt 2)] 7)).newVReg =
      some (0, if SPS = SPL then RegClass.a24 else RegClass.a16) ∧
    (processOne eqOracle true [] 0 ValLoc.empty
      (mkI Opcode.COPY [MachineOperand.reg SPS,
        MachineOperand.reg (Register.virt 2)] 7)).nextV = 0 + 1 ∧
    (processOne eqOracle true [] 0 ValLoc.empty
      (mkI Opcode.COPY [MachineOperand.reg SPS,
        MachineOperand.reg (Register.virt 2)] 7)).erasedCurrent = false :=
  c6_sp_copy_legalization eqOracle true [] 0 ValLoc.empty SPS
    (MachineOperand.reg (Register.virt 2)) 7 (Or.inl rfl)

/-- Claim C7: push/effective-address fusion fires exactly when the target
has the extended opcodes, the pushed register has exactly one use in the
whole function, and its defining instruction is the matching-width load
effective address; no shape is rewritten otherwise; a fused
`push(lea(base, 0))` with register base becomes `push(base)`, any other
shape becomes a push-effective-address carrying the original base operand
and offset, and the fusion requests the deletion of the defining lea; the
concrete runs show the lea deleted in both shapes, and no rewrite without
the extended opcode set or with a second use of the register. -/
theorem c7_push_lea_fusion :
    (∀ (ov : Overlap) (hz : Bool) (fn : List MachineInstr) (nv : Nat)
      (loc : ValLoc) (p24 : Bool) (r : Register) (dl : Nat),
      (hz = false ∨ useCount fn r ≠ 1 ∨
        (∀ srcMI, getVRegDef fn r = some srcMI →
          srcMI.opcode ≠ (if p24 then Opcode.LEA24ro else Opcode.LEA16ro))) →
      (processOne ov hz fn nv loc
        (mkI (if p24 then Opcode.PUSH24r else Opcode.PUSH16r)
          [MachineOperand.reg r] dl)).emit =
        [mkI (if p24 then Opcode.PUSH24r else Opcode.PUSH16r)
          [MachineOperand.reg r] dl] ∧
      (processOne ov hz fn nv loc
        (mkI (if p24 then Opcode.PUSH24r else Opcode.PUSH16r)
          [MachineOperand.reg r] dl)).changedDelta = false ∧
      (processOne ov hz fn nv loc
        (mkI (if p24 then Opcode.PUSH24r else Opcode.PUSH16r)
          [MachineOperand.reg r] dl)).eraseDefOf = none)
    ∧
    (∀ (ov : Overlap) (hz : Bool) (fn : List MachineInstr) (nv : Nat)
      (loc : ValLoc) (p24 : Bool) (r : Register) (dl : Nat)
      (srcMI : MachineInstr) (b : Register),
      hz = true → useCount fn r = 1 → getVRegDef fn r = some srcMI →
      srcMI.opcode = (if p24 then Opcode.LEA24ro else Opcode.LEA16ro) →
      srcMI.getOperand 1 = MachineOperand.reg b →
      (srcMI.getOperand 2).getImm = 0 →
      (processOne ov hz fn nv loc
        (mkI (if p24 then Opcode.PUSH24r else Opcode.PUSH16r)
          [MachineOperand.reg r] dl)).emit =
        [mkI (if p24 then Opcode.PUSH24r else Opcode.PUSH16r)
          [MachineOperand.reg b] dl] ∧
      (processOne ov hz fn nv loc
        (mkI (if p24 then Opcode.PUSH24r else Opcode.PUSH16r)
          [MachineOperand.reg r] dl)).eraseDefOf = some r ∧
      (processOne ov hz fn nv loc
        (mkI (if p24 then Opcode.PUSH24r else Opcode.PUSH16r)
          [MachineOperand.reg r] dl)).changedDelta = true)
    ∧
    (∀ (ov : Overlap) (hz : Bool) (fn : List MachineInstr) (nv : Nat)
      (loc : ValLoc) (p24 : Bool) (r : Register) (dl : Nat)
      (srcMI : MachineInstr),
      hz = true → useCount fn r = 1 → getVRegDef fn r = some srcMI →
      srcMI.opcode = (if p24 then Opcode.LEA24ro else Opcode.LEA16ro) →
      (¬(srcMI.getOperand 1).isReg = true ∨
        (srcMI.getOperand 2).getImm ≠ 0) →
      (processOne ov hz fn nv loc
        (mkI (if p24 then Opcode.PUSH24r else Opcode.PUSH16r)
          [MachineOperand.reg r] dl)).emit =
        [mkI (if p24 then Opcode.PEA24o else Opcode.PEA16o)
          [srcMI.getOperand 1,
           MachineOperand.imm ((srcMI.getOperand 2).getImm)] dl] ∧
      (processOne ov hz fn nv loc
        (mkI (if p24 then Opcode.PUSH24r else Opcode.PUSH16r)
          [MachineOperand.reg r] dl)).eraseDefOf = some r ∧
      (processOne ov hz fn nv loc
        (mkI (if p24 then Opcode.PUSH24r else Opcode.PUSH16r)
          [MachineOperand.reg r] dl)).changedDelta = true)
    ∧
    (runPass eqOracle true [[iLEA0, iPUSH]] =
      ⟨[[mkI Opcode.PUSH16r [MachineOperand.reg (Register.phys 20)] 0]],
        true, false⟩ ∧
     runPass eqOracle true [[iLEA2, iPUSH]] =
      ⟨[[mkI Opcode.PEA16o [MachineOperand.reg (Register.phys 20),
          MachineOperand.imm 2] 0]], true, false⟩ ∧
     runPass eqOracle false [[iLEA0, iPUSH]] =
      ⟨[[iLEA0, iPUSH]], false, false⟩ ∧
     runPass eqOracle true [[iLEA0, iPUSH, iPUSH]] =
      ⟨[[iLEA0, iPUSH, iPUSH]], false, false⟩) := by
  refine ⟨?_, ?_, ?_, by decide, by decide, by decide, by decide⟩
  · intro ov hz fn nv loc p24 r dl h
    cases p24 <;> cases hz <;> rcases h with h | h | h <;> subst_eqs <;>
      first
      | (simp [processOne, ruleStep, mkI, passThrough]; done)
      | (simp [processOne, ruleStep, mkI, MachineInstr.getOperand,
          MachineOperand.getReg, passThrough, h]; done)
      | (simp at h
         cases hdef : getVRegDef fn r
         · simp [processOne, ruleStep, mkI, MachineInstr.getOperand,
             MachineOperand.getReg, hdef, passThrough]
         · rename_i srcMI
           have hne := h srcMI hdef
           simp at hne
           simp [processOne, ruleStep, mkI, MachineInstr.getOperand,
             MachineOperand.getReg, hdef, passThrough, hne])
  · intro ov hz fn nv loc p24 r dl srcMI b hhz h1 hdef hop hbase hoff
    subst hhz
    simp [MachineInstr.getOperand] at hbase hoff
    cases p24 <;> simp at hop <;>
      simp [processOne, ruleStep, mkI, MachineInstr.getOperand,
        MachineOperand.getReg, MachineOperand.isReg, h1, hdef, hop, hbase,
        hoff, MachineInstr.defs, Opcode.numExplicitDefs, ValLoc.clobberDefs]
  · intro ov hz fn nv loc p24 r dl srcMI hhz h1 hdef hop hshape
    subst hhz
    simp [MachineInstr.getOperand, MachineOperand.isReg] at hshape
    cases p24 <;> simp at hop <;>
      rcases hshape with h | h <;>
      simp [processOne, ruleStep, mkI, MachineInstr.getOperand,
        MachineOperand.getReg, MachineOperand.isReg, h1, hdef, hop, h,
        MachineInstr.defs, Opcode.numExplicitDefs, ValLoc.clobberDefs]

/-- Claim C7 witness: the zero-offset fusion applied in the concrete
two-instruction function. -/
theorem c7_push_lea_fusion_witness :
    (processOne eqOracle true [iLEA0, iPUSH] 0 ValLoc.empty
      (mkI (if false then Opcode.PUSH24r else Opcode.PUSH16r)
        [MachineOperand.reg (Register.virt 3)] 0)).emit =
      [mkI (if false then Opcode.PUSH24r else Opcode.PUSH16r)
        [MachineOperand.reg (Register.phys 20)] 0] ∧
    (processOne eqOracle true [iLEA0, iPUSH] 0 ValLoc.empty
      (mkI (if false then Opcode.PUSH24r else Opcode.PUSH16r)
        [MachineOperand.reg (Register.virt 3)] 0)).eraseDefOf =
      some (Register.virt 3) ∧
    (processOne eqOracle true [iLEA0, iPUSH] 0 ValLoc.empty
      (mkI (if false then Opcode.PUSH24r else Opcode.PUSH16r)
        [MachineOperand.reg (Register.virt 3)] 0)).changedDelta = true :=
  c7_push_lea_fusion.2.1 eqOracle true [iLEA0, iPUSH] 0 ValLoc.empty
    false (Register.virt 3) 0 iLEA0 (Register.phys 20) rfl (by decide)
    (by decide) (by decide) (by decide) (by decide)

/-- Claim C8: the pass is total in the embedding, but the per-instruction
clobber step reads the self-OR instruction after the rewrite rule erased
it from its parent (a use after erase): on the concrete failing stream
the instrumentation flag records that `clobberDefs` was invoked on an
erased instruction, while a run that deletes nothing never reads an
erased instruction. -/
theorem c8_clobber_reads_erased_instruction :
    (runPass eqOracle true [[iADD, iORA]]).clobberedErased = true ∧
    (runPass eqOracle true [[iORA]]).clobberedErased = false := by decide

/-- Claim C9 counterexample: walking the block that holds only the push
deletes the defining load-effective-address residing in the previous
block — the first block loses an instruction although its own walk left
it untouched. -/
theorem c9_counterexample_cross_block_erase :
    runPass eqOracle true [[iLEA2], [iPUSH]] =
      ⟨[[], [mkI Opcode.PEA16o [MachineOperand.reg (Register.phys 20),
        MachineOperand.imm 2] 0]], true, false⟩ ∧
    runPass eqOracle true [[iLEA2]] = ⟨[[iLEA2]], false, false⟩ := by decide

/-- Claim C9 amended: every mutation other than push/effective-address
fusion affects only the block being walked — walking any instruction
sequence that contains no push instruction leaves all other blocks of the
function unchanged; the fusion may additionally delete the defining
load-effective-address from another block. -/
theorem c9_amended_intra_block_frame (ov : Overlap) (hz : Bool)
    (st : WalkSt) (b : List MachineInstr)
    (h : ∀ mi ∈ b, mi.opcode ≠ Opcode.PUSH16r ∧
      mi.opcode ≠ Opcode.PUSH24r) :
    (walkBlock ov hz st b).prevBlocks = st.prevBlocks ∧
    (walkBlock ov hz st b).restBlocks = st.restBlocks :=
  walkBlockAux_frame ov hz b.length st b h

/-- Claim C9 witness: the frame property applied to a concrete state and
a push-free block. -/
theorem c9_amended_intra_block_frame_witness :
    (walkBlock eqOracle true
      ⟨[[iINC]], [], [[iLEA2]], ValLoc.empty, false, false, 0, []⟩
      [iADD, iORA]).prevBlocks = [[iINC]] ∧
    (walkBlock eqOracle true
      ⟨[[iINC]], [], [[iLEA2]], ValLoc.empty, false, false, 0, []⟩
      [iADD, iORA]).restBlocks = [[iLEA2]] :=
  c9_amended_intra_block_frame eqOracle true
    ⟨[[iINC]], [], [[iLEA2]], ValLoc.empty, false, false, 0, []⟩
    [iADD, iORA] (by decide)

/-- Claim C10: a non-negative frame index used as the base of an
offset-form memory operand is mapped to the dedicated stack-slot
pseudo-register, which is a valid register, so an access tracked through
it matches a later access through the same frame index and equal offset;
a negative frame index yields the invalid base register, and a memory
query through it never matches, whatever the tracker holds. -/
theorem c10_frame_index_bases (i o : Int) (dl dl' : Nat)
    (dstMO : MachineOperand) (l : ValLoc) :
    (0 ≤ i →
      ValLoc.getBaseReg
        (mkI Opcode.ADD8ao [MachineOperand.fi i, MachineOperand.imm o] dl)
        0 = Register.stackslot i.toNat ∧
      (Register.stackslot i.toNat).isValid = true ∧
      ((ValLoc.empty.setOffOp
          (mkI Opcode.ADD8ao [MachineOperand.fi i, MachineOperand.imm o]
            dl) 0).matchesOffOp
        (mkI Opcode.LD8ro [dstMO, MachineOperand.fi i,
          MachineOperand.imm o] dl') 1 = true))
    ∧ (i < 0 →
      ValLoc.getBaseReg
        (mkI Opcode.ADD8ao [MachineOperand.fi i, MachineOperand.imm o] dl)
        0 = Register.invalid ∧
      l.matchesOffOp
        (mkI Opcode.ADD8ao [MachineOperand.fi i, MachineOperand.imm o] dl)
        0 = false) := by
  constructor
  · intro h
    refine ⟨?_, ?_, ?_⟩ <;>
      simp [ValLoc.getBaseReg, mkI, MachineInstr.getOperand,
        MachineOperand.isReg, MachineOperand.getIndex, MachineOperand.getImm,
        Register.index2StackSlot, h, ValLoc.setOffOp, ValLoc.setMem,
        ValLoc.matchesOffOp, ValLoc.matchesMem, Register.isValid]
  · intro h
    constructor <;>
      simp [ValLoc.getBaseReg, mkI, MachineInstr.getOperand,
        MachineOperand.isReg, MachineOperand.getIndex, MachineOperand.getImm,
        Register.index2StackSlot, Int.not_le.mpr h, ValLoc.matchesOffOp,
        ValLoc.matchesMem, Register.isValid, not_le, h]

/-- Claim C10 witness: frame index 3 with offset 5 is tracked and
matched, frame index -1 is never matched. -/
theorem c10_frame_index_bases_witness :
    (ValLoc.getBaseReg
      (mkI Opcode.ADD8ao [MachineOperand.fi 3, MachineOperand.imm 5] 0)
      0 = Register.stackslot (3 : Int).toNat ∧
    (Register.stackslot (3 : Int).toNat).isValid = true ∧
    ((ValLoc.empty.setOffOp
        (mkI Opcode.ADD8ao [MachineOperand.fi 3, MachineOperand.imm 5] 0)
        0).matchesOffOp
      (mkI Opcode.LD8ro [MachineOperand.reg (Register.virt 9),
        MachineOperand.fi 3, MachineOperand.imm 5] 1) 1 = true))
    ∧
    (ValLoc.getBaseReg
      (mkI Opcode.ADD8ao [MachineOperand.fi (-1), MachineOperand.imm 5] 0)
      0 = Register.invalid ∧
    ValLoc.empty.matchesOffOp
      (mkI Opcode.ADD8ao [MachineOperand.fi (-1), MachineOperand.imm 5] 0)
      0 = false) :=
  ⟨(c10_frame_index_bases 3 5 0 1 (MachineOperand.reg (Register.virt 9))
      ValLoc.empty).1 (by decide),
   (c10_frame_index_bases (-1) 5 0 1
      (MachineOperand.reg (Register.virt 9)) ValLoc.empty).2 (by decide)⟩

end Z80
